import Mathlib

/-!
Shallow embedding of the falling-block puzzle game core (src/main.rs).

The grid is a list of rows, each row a list of optional color tags; machine
integers `i32` become `Int` and `u32`/`usize` become `Nat` (no value in the
game logic approaches the overflow boundary).  The random draws performed by
`Game::new` and `Game::spawn_next` are injected as explicit `PieceKind`
arguments.  The two unbounded descent loops (`hard_drop`, `ghost_cells`) are
embedded with an explicit fuel parameter; termination of the loops is the
statement that some fuel reaches the loop's exit condition and further fuel
changes nothing.
-/

def BOARD_W : Nat := 10

def BOARD_H : Nat := 20

def CELL_W : Nat := 4

inductive Color where
  | cyan
  | yellow
  | magenta
  | green
  | red
  | blue
  | darkYellow
deriving DecidableEq

inductive PieceKind where
  | I
  | O
  | T
  | S
  | Z
  | J
  | L
deriving DecidableEq

def PieceKind.color : PieceKind → Color
  | .I => .cyan
  | .O => .yellow
  | .T => .magenta
  | .S => .green
  | .Z => .red
  | .J => .blue
  | .L => .darkYellow

/-- Rotation-state-0 cell offsets of each piece (4x4 local frame). -/
def PieceKind.cells : PieceKind → List (Int × Int)
  | .I => [(0, 1), (1, 1), (2, 1), (3, 1)]
  | .O => [(1, 0), (2, 0), (1, 1), (2, 1)]
  | .T => [(0, 1), (1, 1), (2, 1), (1, 0)]
  | .S => [(0, 1), (1, 1), (1, 0), (2, 0)]
  | .Z => [(0, 0), (1, 0), (1, 1), (2, 1)]
  | .J => [(0, 0), (0, 1), (1, 1), (2, 1)]
  | .L => [(2, 0), (0, 1), (1, 1), (2, 1)]

structure Piece where
  kind : PieceKind
  cells : List (Int × Int)
  x : Int
  y : Int
deriving DecidableEq

/-- Spawn placement of `Piece::new`: centered horizontally, one row above the board. -/
def Piece.new (kind : PieceKind) : Piece :=
  { kind := kind
    cells := kind.cells
    x := ((BOARD_W : Int) - (CELL_W : Int)) / 2
    y := -1 }

/-- Absolute occupied cells (`Piece::absolute_cells`): offsets translated by the position. -/
def Piece.absolute_cells (p : Piece) : List (Int × Int) :=
  p.cells.map (fun c => (p.x + c.1, p.y + c.2))

/-- Clockwise 90-degree rotation of the offsets (`Piece::rotated_cw`). -/
def Piece.rotated_cw (p : Piece) : List (Int × Int) :=
  if p.kind = PieceKind.O then
    p.cells
  else
    let size : Int := if p.kind = PieceKind.I then 4 else 3
    p.cells.map (fun c => (size - 1 - c.2, c.1))

structure Board where
  grid : List (List (Option Color))
deriving DecidableEq

def Board.new : Board :=
  { grid := List.replicate BOARD_H (List.replicate BOARD_W none) }

/-- Collision query `Board::is_free`: in horizontal bounds, below-board blocked,
above-board free, otherwise the cell must be empty. -/
def Board.is_free (b : Board) (x y : Int) : Bool :=
  if x < 0 ∨ (BOARD_W : Int) ≤ x then false
  else if (BOARD_H : Int) ≤ y then false
  else if y < 0 then true
  else ((b.grid.getD y.toNat []).getD x.toNat none).isNone

/-- Fit predicate `Board::fits`: every cell is free. -/
def Board.fits (b : Board) (cells : List (Int × Int)) : Bool :=
  cells.all (fun c => b.is_free c.1 c.2)

/-- Locking (`Board::lock`): write every in-bounds cell; out-of-bounds cells dropped. -/
def Board.lock (b : Board) (cells : List (Int × Int)) (color : Color) : Board :=
  { grid :=
      cells.foldl
        (fun g c =>
          if 0 ≤ c.2 ∧ c.2 < (BOARD_H : Int) ∧ 0 ≤ c.1 ∧ c.1 < (BOARD_W : Int) then
            g.set c.2.toNat ((g.getD c.2.toNat []).set c.1.toNat (some color))
          else g)
        b.grid }

/-- A row is full when every cell is occupied (`iter().all(|c| c.is_some())`). -/
def rowFull (r : List (Option Color)) : Bool :=
  r.all (fun c => c.isSome)

/-- Line clearing (`Board::clear_lines`): keep the non-full rows in order, refill
with empty rows on top, return the count of removed rows. -/
def Board.clear_lines (b : Board) : Board × Nat :=
  let kept := b.grid.filter (fun r => !(rowFull r))
  let cleared := b.grid.countP (fun r => rowFull r)
  let empty_count := BOARD_H - kept.length
  (⟨List.replicate empty_count (List.replicate BOARD_W none) ++ kept⟩, cleared)

structure Game where
  board : Board
  current : Piece
  next : PieceKind
  score : Nat
  lines : Nat
  level : Nat
  game_over : Bool
deriving DecidableEq

/-- Initial state (`Game::new`) with the two random kind draws injected. -/
def Game.newGame (kind next : PieceKind) : Game :=
  { board := Board.new
    current := Piece.new kind
    next := next
    score := 0
    lines := 0
    level := 1
    game_over := false }

/-- Spawning (`Game::spawn_next`) with the random next-kind draw injected. -/
def Game.spawn_next (g : Game) (newNext : PieceKind) : Game :=
  let g2 := { g with current := Piece.new g.next, next := newNext }
  if !(g2.board.fits g2.current.absolute_cells) then
    { g2 with game_over := true }
  else g2

/-- The candidate piece `try_move` builds (translated by (dx,dy)). -/
def Game.movedPiece (g : Game) (dx dy : Int) : Piece :=
  { g.current with x := g.current.x + dx, y := g.current.y + dy }

/-- Movement (`Game::try_move`): commit the translated candidate iff it fits. -/
def Game.try_move (g : Game) (dx dy : Int) : Bool × Game :=
  if g.board.fits (g.movedPiece dx dy).absolute_cells then
    (true, { g with current := g.movedPiece dx dy })
  else
    (false, g)

/-- The wall-kick offset candidates of `try_rotate`. -/
def kicks (k : PieceKind) : List (Int × Int) :=
  if k = PieceKind.I then
    [(0, 0), (-1, 0), (1, 0), (-2, 0), (2, 0), (0, -1), (0, -2)]
  else
    [(0, 0), (-1, 0), (1, 0), (0, -1), (-1, -1), (1, -1)]

/-- Absolute cells of the rotated piece under a kick offset. -/
def kickAbs (g : Game) (rotated : List (Int × Int)) (k : Int × Int) :
    List (Int × Int) :=
  rotated.map (fun c => (g.current.x + c.1 + k.1, g.current.y + c.2 + k.2))

/-- The state committed when a kick fits: rotated cells, shifted position. -/
def commitRotate (g : Game) (rotated : List (Int × Int)) (k : Int × Int) : Game :=
  { g with
      current :=
        { g.current with
            cells := rotated
            x := g.current.x + k.1
            y := g.current.y + k.2 } }

/-- The kick loop of `try_rotate`: commit on the first fitting kick. -/
def tryKicks (g : Game) (rotated : List (Int × Int)) :
    List (Int × Int) → Bool × Game
  | [] => (false, g)
  | k :: rest =>
    if g.board.fits (kickAbs g rotated k) then
      (true, commitRotate g rotated k)
    else
      tryKicks g rotated rest

/-- Rotation (`Game::try_rotate`): the square piece trivially succeeds; otherwise
try the kick offsets in order on the rotated cells. -/
def Game.try_rotate (g : Game) : Bool × Game :=
  if g.current.kind = PieceKind.O then
    (true, g)
  else
    tryKicks g g.current.rotated_cw (kicks g.current.kind)

/-- The scoring table of `lock_and_advance`. -/
def scoreFor (cleared level : Nat) : Nat :=
  match cleared with
  | 1 => 100 * level
  | 2 => 300 * level
  | 3 => 500 * level
  | 4 => 800 * level
  | _ => 0

/-- Locking step (`Game::lock_and_advance`): lock the piece, clear lines, update
lines, score (with the pre-update level) and level, then spawn the next piece. -/
def Game.lock_and_advance (g : Game) (newNext : PieceKind) : Game :=
  let cells := g.current.absolute_cells
  let color := g.current.kind.color
  let r := (g.board.lock cells color).clear_lines
  let g1 := { g with board := r.1 }
  let g2 :=
    if 0 < r.2 then
      { g1 with
          lines := g1.lines + r.2
          score := g1.score + scoreFor r.2 g1.level
          level := (g1.lines + r.2) / 10 + 1 }
    else g1
  g2.spawn_next newNext

/-- Lines cleared by the lock step of `lock_and_advance` on state `g`. -/
def Game.clearedOf (g : Game) : Nat :=
  ((g.board.lock g.current.absolute_cells g.current.kind.color).clear_lines).2

/-- The descent loop of `hard_drop` (`while self.try_move(0,1) {}`), with fuel. -/
def hardDropDescend : Nat → Game → Game
  | 0, g => g
  | fuel + 1, g =>
    let r := g.try_move 0 1
    if r.1 then hardDropDescend fuel r.2 else g

/-- Hard drop (`Game::hard_drop`): descend, then lock and advance. -/
def Game.hard_drop (g : Game) (fuel : Nat) (newNext : PieceKind) : Game :=
  (hardDropDescend fuel g).lock_and_advance newNext

/-- The descent loop of `ghost_cells`, with fuel: step the ghost copy down
while the next row of cells fits. -/
def ghostDescend : Nat → Board → Piece → Piece
  | 0, _, gh => gh
  | fuel + 1, b, gh =>
    let next_cells := gh.cells.map (fun c => (gh.x + c.1, gh.y + c.2 + 1))
    if b.fits next_cells then
      ghostDescend fuel b { gh with y := gh.y + 1 }
    else gh

/-- Ghost projection (`Game::ghost_cells`): absolute cells of the descended copy. -/
def Game.ghost_cells (g : Game) (fuel : Nat) : List (Int × Int) :=
  (ghostDescend fuel g.board g.current).absolute_cells

/-- The exit condition of both descent loops: the piece one row down no longer
fits. -/
def blockedBelow (b : Board) (p : Piece) : Bool :=
  !(b.fits (p.cells.map (fun c => (p.x + c.1, p.y + c.2 + 1))))

/-- Keys the driver loop (`run_game`) distinguishes. -/
inductive Key where
  | left
  | right
  | down
  | up
  | z
  | space
  | q
  | r
  | esc
  | ctrlC
  | other
deriving DecidableEq

/-- The game-over inner loop of `run_game`: only retry and quit are handled;
`none` means the process returns, otherwise the retained game state. -/
def overPhase (g : Game) (fresh : Game) (k : Key) : Option Game :=
  match k with
  | .r => some fresh
  | .q => none
  | .esc => none
  | _ => some g

/-- The active-state input dispatch of `run_game`. -/
def inputPhase (g : Game) (k : Key) (fuel : Nat) (newNext : PieceKind) :
    Option Game :=
  match k with
  | .left => some (g.try_move (-1) 0).2
  | .right => some (g.try_move 1 0).2
  | .down =>
    let r := g.try_move 0 1
    some (if r.1 then r.2 else r.2.lock_and_advance newNext)
  | .up => some (g.try_rotate).2
  | .z => some (g.try_rotate).2
  | .space => some (g.hard_drop fuel newNext)
  | .q => none
  | .esc => none
  | .ctrlC => none
  | _ => some g

/-- The gravity step of `run_game` when the drop interval has elapsed. -/
def gravityPhase (g : Game) (newNext : PieceKind) : Game :=
  let r := g.try_move 0 1
  if r.1 then r.2 else r.2.lock_and_advance newNext

/-! ## Concrete states used by the claims about the terminal flag -/

/-- Top row of the counterexample board: one occupied cell at column 4, which
blocks the spawn cell (4,0) of the square piece. -/
def cexRow0 : List (Option Color) :=
  List.replicate 4 none ++ [some Color.red] ++ List.replicate 5 none

def cexBoard : Board :=
  { grid := cexRow0 :: List.replicate 19 (List.replicate BOARD_W none) }

/-- A T piece resting near the bottom of the counterexample board. -/
def cexPiece : Piece :=
  { kind := PieceKind.T, cells := PieceKind.T.cells, x := 3, y := 17 }

def cexGame : Game :=
  { board := cexBoard
    current := cexPiece
    next := PieceKind.O
    score := 0
    lines := 0
    level := 1
    game_over := false }

/-- The state after the lock whose spawn is blocked: `game_over` is set. -/
def cexOver : Game := cexGame.lock_and_advance PieceKind.T

/-- Repeatedly commit the clockwise rotation, as the game does on each
successful square-piece rotation. -/
def rotIter (p : Piece) : Nat → Piece
  | 0 => p
  | n + 1 =>
    let q := rotIter p n
    { q with cells := q.rotated_cw }

/-! ## Support lemmas -/

theorem spawn_next_preserves (g : Game) (k : PieceKind) :
    (g.spawn_next k).board = g.board ∧ (g.spawn_next k).score = g.score ∧
    (g.spawn_next k).lines = g.lines ∧ (g.spawn_next k).level = g.level := by
  simp only [Game.spawn_next]
  split <;> simp

theorem tryKicks_fits (g : Game) (rotated : List (Int × Int))
    (h : g.board.fits g.current.absolute_cells = true) :
    ∀ l : List (Int × Int),
      (tryKicks g rotated l).2.board.fits
        (tryKicks g rotated l).2.current.absolute_cells = true
  | [] => h
  | k :: rest => by
    by_cases hf : g.board.fits (kickAbs g rotated k) = true
    · have habs : (commitRotate g rotated k).current.absolute_cells =
          kickAbs g rotated k := by
        simp only [commitRotate, Piece.absolute_cells, kickAbs]
        apply List.map_congr_left
        intro c _
        rw [Prod.mk.injEq]
        constructor <;> ring
      simp only [tryKicks, if_pos hf]
      rw [show (commitRotate g rotated k).board = g.board from rfl, habs]
      exact hf
    · simp only [tryKicks, if_neg hf]
      exact tryKicks_fits g rotated h rest

theorem tryKicks_eq_find (g : Game) (rotated : List (Int × Int)) :
    ∀ l : List (Int × Int),
      tryKicks g rotated l =
        match l.find? (fun k => g.board.fits (kickAbs g rotated k)) with
        | some k => (true, commitRotate g rotated k)
        | none => (false, g)
  | [] => rfl
  | k :: rest => by
    by_cases hf : g.board.fits (kickAbs g rotated k) = true
    · rw [List.find?_cons_of_pos rest hf]
      simp only [tryKicks, if_pos hf]
    · rw [List.find?_cons_of_neg rest hf]
      simp only [tryKicks, if_neg hf]
      exact tryKicks_eq_find g rotated rest

theorem movedPiece_zero_one (g : Game) :
    g.movedPiece 0 1 = { g.current with y := g.current.y + 1 } := by
  simp [Game.movedPiece]

theorem next_cells_abs (p : Piece) :
    p.cells.map (fun c => (p.x + c.1, p.y + c.2 + 1)) =
      ({ p with y := p.y + 1 } : Piece).absolute_cells := by
  simp only [Piece.absolute_cells]
  apply List.map_congr_left
  intro c _
  rw [Prod.mk.injEq]
  constructor <;> ring

theorem hardDropDescend_eq : ∀ (fuel : Nat) (g : Game),
    hardDropDescend fuel g = { g with current := ghostDescend fuel g.board g.current }
  | 0, g => rfl
  | fuel + 1, g => by
    have hcond : g.board.fits
        (g.current.cells.map (fun c => (g.current.x + c.1, g.current.y + c.2 + 1))) =
        g.board.fits ((g.movedPiece 0 1).absolute_cells) := by
      rw [next_cells_abs, movedPiece_zero_one]
    by_cases hf : g.board.fits ((g.movedPiece 0 1).absolute_cells) = true
    · simp only [hardDropDescend, ghostDescend, Game.try_move, if_pos hf,
        hcond, hf, if_true]
      rw [hardDropDescend_eq fuel { g with current := g.movedPiece 0 1 }]
      rw [movedPiece_zero_one]
    · have hf2 : g.board.fits
          (g.current.cells.map (fun c => (g.current.x + c.1, g.current.y + c.2 + 1))) =
          false := by
        rw [hcond]
        exact Bool.not_eq_true _ ▸ hf
      simp only [hardDropDescend, ghostDescend, Game.try_move, if_neg hf, hf2,
        Bool.false_eq_true, if_false]

theorem ghostDescend_blocked (b : Board) (p : Piece)
    (h : blockedBelow b p = true) :
    ∀ f : Nat, ghostDescend f b p = p
  | 0 => rfl
  | f + 1 => by
    have hf : b.fits (p.cells.map (fun c => (p.x + c.1, p.y + c.2 + 1))) = false := by
      simpa [blockedBelow] using h
    simp only [ghostDescend, hf, Bool.false_eq_true, if_false]

theorem ghostDescend_add (b : Board) :
    ∀ (m n : Nat) (p : Piece),
      ghostDescend (m + n) b p = ghostDescend n b (ghostDescend m b p)
  | 0, n, p => by rw [Nat.zero_add]; rfl
  | m + 1, n, p => by
    by_cases hf :
        b.fits (p.cells.map (fun c => (p.x + c.1, p.y + c.2 + 1))) = true
    · rw [Nat.add_right_comm]
      simp only [ghostDescend, hf, if_true]
      exact ghostDescend_add b m n { p with y := p.y + 1 }
    · have hb : blockedBelow b p = true := by
        simp [blockedBelow, Bool.not_eq_true _ ▸ hf]
      simp only [ghostDescend_blocked b p hb]

theorem is_free_false_of_below (b : Board) (x y : Int)
    (h : (BOARD_H : Int) ≤ y) : b.is_free x y = false := by
  by_cases hx : x < 0 ∨ (BOARD_W : Int) ≤ x
  · simp [Board.is_free, hx]
  · simp [Board.is_free, hx, h]

theorem blocked_of_cell (b : Board) (p : Piece) (c : Int × Int)
    (hc : c ∈ p.cells) (h : (BOARD_H : Int) ≤ p.y + c.2 + 1) :
    blockedBelow b p = true := by
  simp only [blockedBelow, Bool.not_eq_true']
  rw [Board.fits, List.all_eq_false]
  refine ⟨(p.x + c.1, p.y + c.2 + 1), List.mem_map_of_mem _ hc, ?_⟩
  rw [is_free_false_of_below b _ _ h]
  simp

theorem ghost_terminates (b : Board) (p : Piece) (c : Int × Int)
    (hc : c ∈ p.cells) :
    ∃ f : Nat, blockedBelow b (ghostDescend f b p) = true := by
  suffices hgen : ∀ (N : Nat) (q : Piece), c ∈ q.cells →
      (BOARD_H : Int) ≤ q.y + c.2 + N →
      ∃ f : Nat, blockedBelow b (ghostDescend f b q) = true by
    exact hgen ((BOARD_H : Int) + 1 - (p.y + c.2)).toNat p hc (by omega)
  intro N
  induction N with
  | zero =>
    intro q hq hN
    exact ⟨0, blocked_of_cell b q c hq (by omega)⟩
  | succ n ih =>
    intro q hq hN
    by_cases hb : blockedBelow b q = true
    · exact ⟨0, hb⟩
    · have hfit :
          b.fits (q.cells.map (fun cc => (q.x + cc.1, q.y + cc.2 + 1))) = true := by
        simpa [blockedBelow] using hb
      obtain ⟨f, hf⟩ := ih { q with y := q.y + 1 } hq (by push_cast at hN ⊢; omega)
      refine ⟨f + 1, ?_⟩
      simpa only [ghostDescend, hfit, if_true] using hf

theorem rotIter_kind (p : Piece) : ∀ n : Nat, (rotIter p n).kind = p.kind
  | 0 => rfl
  | n + 1 => by
    simp only [rotIter]
    exact rotIter_kind p n

/-! ## Claim theorems -/

/-- C2: `clear_lines` removes exactly the full rows, keeps the non-full rows in
their original relative order at the bottom, inserts the removed count of empty
rows at the top, and returns the removed count; with zero full rows it returns
0 and leaves the grid unchanged. -/
theorem C2_clear_lines (b : Board) (h : b.grid.length = BOARD_H) :
    b.clear_lines.2 = b.grid.countP (fun r => rowFull r) ∧
    b.clear_lines.1.grid =
      List.replicate b.clear_lines.2 (List.replicate BOARD_W none) ++
        b.grid.filter (fun r => !(rowFull r)) ∧
    ((∀ r ∈ b.grid, rowFull r = false) →
      b.clear_lines.1 = b ∧ b.clear_lines.2 = 0) := by
  have hcount : b.grid.countP (fun r => rowFull r) =
      BOARD_H - (b.grid.filter (fun r => !(rowFull r))).length := by
    have h1 := List.countP_eq_length_filter (fun r => rowFull r) b.grid
    have h2 := List.length_eq_length_filter_add (l := b.grid) (fun r => rowFull r)
    omega
  refine ⟨rfl, ?_, ?_⟩
  · have h3 : b.clear_lines.2 = b.grid.countP (fun r => rowFull r) := rfl
    rw [h3, hcount]
    rfl
  · intro hall
    have hkeep : b.grid.filter (fun r => !(rowFull r)) = b.grid :=
      List.filter_eq_self.mpr (fun r hr => by rw [hall r hr]; rfl)
    have hzero : b.grid.countP (fun r => rowFull r) = 0 :=
      List.countP_eq_zero.mpr (fun r hr => by rw [hall r hr]; simp)
    constructor
    · show Board.mk (List.replicate (BOARD_H -
          (b.grid.filter (fun r => !(rowFull r))).length)
          (List.replicate BOARD_W none) ++ b.grid.filter (fun r => !(rowFull r))) = b
      rw [hkeep, h, Nat.sub_self, List.replicate_zero, List.nil_append]
    · show b.grid.countP (fun r => rowFull r) = 0
      exact hzero

/-- C2 witness: on the empty board (which has 20 rows and no full rows) the
theorem applies and in particular the board is unchanged with count 0. -/
theorem C2_clear_lines_witness :
    Board.new.grid.length = BOARD_H ∧
    (∀ r ∈ Board.new.grid, rowFull r = false) ∧
    (Board.new.clear_lines.1 = Board.new ∧ Board.new.clear_lines.2 = 0) :=
  ⟨by decide, by decide,
    (C2_clear_lines Board.new (by decide)).2.2 (by decide)⟩

/-- C5: `try_move(dx,dy)` commits the translated piece and returns true iff
every absolute cell of the translated piece is free; otherwise it returns
false and the whole game state is exactly as before. -/
theorem C5_try_move (g : Game) (dx dy : Int) :
    ((g.try_move dx dy).1 = true ↔
      (g.movedPiece dx dy).absolute_cells.all
        (fun c => g.board.is_free c.1 c.2) = true) ∧
    ((g.try_move dx dy).1 = true →
      (g.try_move dx dy).2 = { g with current := g.movedPiece dx dy }) ∧
    ((g.try_move dx dy).1 = false → (g.try_move dx dy).2 = g) := by
  by_cases hf : g.board.fits ((g.movedPiece dx dy).absolute_cells) = true
  · have h1 : g.try_move dx dy = (true, { g with current := g.movedPiece dx dy }) := by
      simp only [Game.try_move, if_pos hf]
    have hall : (g.movedPiece dx dy).absolute_cells.all
        (fun c => g.board.is_free c.1 c.2) = true := hf
    rw [h1]
    exact ⟨by simp [hall], fun _ => rfl, by simp⟩
  · have h1 : g.try_move dx dy = (false, g) := by
      simp only [Game.try_move, if_neg hf]
    have hall : (g.movedPiece dx dy).absolute_cells.all
        (fun c => g.board.is_free c.1 c.2) = false := by
      rw [Bool.not_eq_true] at hf
      exact hf
    rw [h1]
    exact ⟨by simp [hall], by simp, fun _ => rfl⟩

/-- C5 witness: on a fresh game, moving right succeeds; the committed state is
the translated piece, matching the fit test. -/
theorem C5_try_move_witness :
    (((Game.newGame PieceKind.T PieceKind.O).try_move 1 0).1 = true ↔
      ((Game.newGame PieceKind.T PieceKind.O).movedPiece 1 0).absolute_cells.all
        (fun c => (Game.newGame PieceKind.T PieceKind.O).board.is_free c.1 c.2)
          = true) ∧
    (((Game.newGame PieceKind.T PieceKind.O).try_move 1 0).1 = true →
      ((Game.newGame PieceKind.T PieceKind.O).try_move 1 0).2 =
        { Game.newGame PieceKind.T PieceKind.O with
            current := (Game.newGame PieceKind.T PieceKind.O).movedPiece 1 0 }) ∧
    (((Game.newGame PieceKind.T PieceKind.O).try_move 1 0).1 = false →
      ((Game.newGame PieceKind.T PieceKind.O).try_move 1 0).2 =
        Game.newGame PieceKind.T PieceKind.O) :=
  C5_try_move (Game.newGame PieceKind.T PieceKind.O) 1 0

/-- C6: every `lock_and_advance` adds to the score exactly the table value
{1 row: 100 x level, 2: 300 x level, 3: 500 x level, 4: 800 x level, else 0},
with the level in force before the recompute; in particular 4 rows at level 3
award 2400. -/
theorem C6_score (g : Game) (k : PieceKind) :
    (g.lock_and_advance k).score = g.score + scoreFor g.clearedOf g.level ∧
    scoreFor 4 3 = 2400 := by
  refine ⟨?_, rfl⟩
  simp only [Game.lock_and_advance, Game.clearedOf]
  rw [(spawn_next_preserves _ k).2.1]
  split
  · rfl
  · next hnot =>
    have h0 : ((g.board.lock g.current.absolute_cells
        g.current.kind.color).clear_lines).2 = 0 := by omega
    rw [h0]
    rfl

/-- C7: when the level/lines relation holds before a lock, it holds after every
`lock_and_advance` (also with zero cleared rows), the level is at least 1, and
the relation holds in the initial state. -/
theorem C7_level (g : Game) (k n1 n2 : PieceKind)
    (h : g.level = g.lines / 10 + 1) :
    (g.lock_and_advance k).level = (g.lock_and_advance k).lines / 10 + 1 ∧
    1 ≤ (g.lock_and_advance k).level ∧
    (Game.newGame n1 n2).level = (Game.newGame n1 n2).lines / 10 + 1 := by
  have hmain :
      (g.lock_and_advance k).level = (g.lock_and_advance k).lines / 10 + 1 := by
    simp only [Game.lock_and_advance]
    rw [(spawn_next_preserves _ k).2.2.2, (spawn_next_preserves _ k).2.2.1]
    split
    · rfl
    · exact h
  exact ⟨hmain, by omega, by simp [Game.newGame]⟩

/-- C7 witness: the relation holds initially, and after a lock on the fresh
game it still holds with level at least 1. -/
theorem C7_level_witness :
    (Game.newGame PieceKind.T PieceKind.O).level =
      (Game.newGame PieceKind.T PieceKind.O).lines / 10 + 1 ∧
    (((Game.newGame PieceKind.T PieceKind.O).lock_and_advance PieceKind.I).level =
      ((Game.newGame PieceKind.T PieceKind.O).lock_and_advance
        PieceKind.I).lines / 10 + 1 ∧
    1 ≤ ((Game.newGame PieceKind.T PieceKind.O).lock_and_advance
        PieceKind.I).level ∧
    (Game.newGame PieceKind.S PieceKind.Z).level =
      (Game.newGame PieceKind.S PieceKind.Z).lines / 10 + 1) :=
  ⟨by decide,
    C7_level (Game.newGame PieceKind.T PieceKind.O) PieceKind.I PieceKind.S
      PieceKind.Z (by decide)⟩

/-- C8: the clockwise rotation fixes the square piece (hence any number of
rotations of O is the identity on its offsets), maps (c,r) to (3-r,c) for the
long bar and (c,r) to (2-r,c) for every other piece, and one rotation of the
T piece from its base offsets gives exactly the set {(1,0),(1,1),(1,2),(2,1)}. -/
theorem C8_rotation :
    (∀ p : Piece, p.kind = PieceKind.O → p.rotated_cw = p.cells) ∧
    (∀ p : Piece, p.kind = PieceKind.I →
      p.rotated_cw = p.cells.map (fun c => (3 - c.2, c.1))) ∧
    (∀ p : Piece, p.kind ≠ PieceKind.O → p.kind ≠ PieceKind.I →
      p.rotated_cw = p.cells.map (fun c => (2 - c.2, c.1))) ∧
    (∀ (p : Piece) (n : Nat), p.kind = PieceKind.O →
      (rotIter p n).cells = p.cells) ∧
    (∀ c : Int × Int, c ∈ (Piece.new PieceKind.T).rotated_cw ↔
      c ∈ [((1 : Int), (0 : Int)), (1, 1), (1, 2), (2, 1)]) := by
  have hO : ∀ p : Piece, p.kind = PieceKind.O → p.rotated_cw = p.cells := by
    intro p hp
    simp [Piece.rotated_cw, hp]
  refine ⟨hO, ?_, ?_, ?_, ?_⟩
  · intro p hp
    have hne : ¬(p.kind = PieceKind.O) := by rw [hp]; decide
    have hI : (if p.kind = PieceKind.I then (4 : Int) else 3) = 4 := by
      rw [hp]
      simp
    simp only [Piece.rotated_cw, if_neg hne, hI]
    apply List.map_congr_left
    intro c _
    rw [Prod.mk.injEq]
    exact ⟨by omega, rfl⟩
  · intro p hpO hpI
    simp only [Piece.rotated_cw, if_neg hpO, if_neg hpI]
    apply List.map_congr_left
    intro c _
    rw [Prod.mk.injEq]
    exact ⟨by omega, rfl⟩
  · intro p n hp
    induction n with
    | zero => rfl
    | succ m ih =>
      simp only [rotIter]
      rw [hO (rotIter p m) (by rw [rotIter_kind p m]; exact hp), ih]
  · have hT : (Piece.new PieceKind.T).rotated_cw =
        [((1 : Int), (0 : Int)), (1, 1), (1, 2), (2, 1)] := by decide
    intro c
    rw [hT]

/-- C8 witness: the square piece at spawn has kind O, its rotation keeps the
offsets, and five repeated rotations keep them as well. -/
theorem C8_rotation_witness :
    (Piece.new PieceKind.O).kind = PieceKind.O ∧
    (Piece.new PieceKind.O).rotated_cw = (Piece.new PieceKind.O).cells ∧
    (rotIter (Piece.new PieceKind.O) 5).cells = (Piece.new PieceKind.O).cells :=
  ⟨rfl, C8_rotation.1 (Piece.new PieceKind.O) rfl,
    C8_rotation.2.2.2.1 (Piece.new PieceKind.O) 5 rfl⟩

/-- C3: when the current piece fits, it still fits immediately after
`try_move` and after `try_rotate` (whether or not they succeed), and after a
`spawn_next` that left the terminal flag false the fresh piece fits. -/
theorem C3_fits_invariant (g : Game) (dx dy : Int) (k : PieceKind)
    (h : g.board.fits g.current.absolute_cells = true) :
    (g.try_move dx dy).2.board.fits
      (g.try_move dx dy).2.current.absolute_cells = true ∧
    (g.try_rotate).2.board.fits
      (g.try_rotate).2.current.absolute_cells = true ∧
    ((g.spawn_next k).game_over = false →
      (g.spawn_next k).board.fits
        (g.spawn_next k).current.absolute_cells = true) := by
  refine ⟨?_, ?_, ?_⟩
  · by_cases hf : g.board.fits ((g.movedPiece dx dy).absolute_cells) = true
    · simp only [Game.try_move, if_pos hf]
      exact hf
    · simp only [Game.try_move, if_neg hf]
      exact h
  · by_cases hO : g.current.kind = PieceKind.O
    · simp only [Game.try_rotate, if_pos hO]
      exact h
    · simp only [Game.try_rotate, if_neg hO]
      exact tryKicks_fits g g.current.rotated_cw h (kicks g.current.kind)
  · intro hover
    by_cases hf : ({ g with current := Piece.new g.next, next := k } :
        Game).board.fits (Piece.new g.next).absolute_cells = true
    · simp only [Game.spawn_next, hf, Bool.not_true, Bool.false_eq_true,
        if_false] at hover ⊢
    · rw [Bool.not_eq_true] at hf
      simp only [Game.spawn_next, hf, Bool.not_false, if_true] at hover
      simp at hover

/-- C3 witness: applied to the fresh game, whose spawned piece fits the empty
board, for a one-column move, a rotation, and a spawn. -/
theorem C3_fits_invariant_witness :
    (Game.newGame PieceKind.T PieceKind.O).board.fits
      (Game.newGame PieceKind.T PieceKind.O).current.absolute_cells = true ∧
    (((Game.newGame PieceKind.T PieceKind.O).try_move 1 0).2.board.fits
      ((Game.newGame PieceKind.T PieceKind.O).try_move
        1 0).2.current.absolute_cells = true ∧
    ((Game.newGame PieceKind.T PieceKind.O).try_rotate).2.board.fits
      ((Game.newGame PieceKind.T
        PieceKind.O).try_rotate).2.current.absolute_cells = true ∧
    (((Game.newGame PieceKind.T PieceKind.O).spawn_next PieceKind.I).game_over
        = false →
      ((Game.newGame PieceKind.T PieceKind.O).spawn_next PieceKind.I).board.fits
        ((Game.newGame PieceKind.T PieceKind.O).spawn_next
          PieceKind.I).current.absolute_cells = true)) :=
  ⟨by decide,
    C3_fits_invariant (Game.newGame PieceKind.T PieceKind.O) 1 0 PieceKind.I
      (by decide)⟩

/-- C4: for a non-square piece, `try_rotate` computes the rotated offsets once,
tries the kick offsets in exactly the listed order (the long list for the long
bar, the short list otherwise), commits the rotation plus the first fitting
kick returning true, and with no fitting kick returns false leaving the state
unchanged. -/
theorem C4_try_rotate (g : Game) (h : g.current.kind ≠ PieceKind.O) :
    (g.current.kind = PieceKind.I →
      kicks g.current.kind =
        [(0, 0), (-1, 0), (1, 0), (-2, 0), (2, 0), (0, -1), (0, -2)]) ∧
    (g.current.kind ≠ PieceKind.I →
      kicks g.current.kind =
        [(0, 0), (-1, 0), (1, 0), (0, -1), (-1, -1), (1, -1)]) ∧
    g.try_rotate =
      (match (kicks g.current.kind).find?
          (fun k => g.board.fits (kickAbs g g.current.rotated_cw k)) with
        | some k => (true, commitRotate g g.current.rotated_cw k)
        | none => (false, g)) := by
  refine ⟨fun hI => by rw [kicks, if_pos hI], fun hI => by rw [kicks, if_neg hI],
    ?_⟩
  rw [Game.try_rotate, if_neg h]
  exact tryKicks_eq_find g g.current.rotated_cw (kicks g.current.kind)

/-- C4 witness: applied to the fresh T-piece game; its kind is not the square. -/
theorem C4_try_rotate_witness :
    (Game.newGame PieceKind.T PieceKind.O).current.kind ≠ PieceKind.O ∧
    (((Game.newGame PieceKind.T PieceKind.O).current.kind = PieceKind.I →
      kicks (Game.newGame PieceKind.T PieceKind.O).current.kind =
        [(0, 0), (-1, 0), (1, 0), (-2, 0), (2, 0), (0, -1), (0, -2)]) ∧
    ((Game.newGame PieceKind.T PieceKind.O).current.kind ≠ PieceKind.I →
      kicks (Game.newGame PieceKind.T PieceKind.O).current.kind =
        [(0, 0), (-1, 0), (1, 0), (0, -1), (-1, -1), (1, -1)]) ∧
    (Game.newGame PieceKind.T PieceKind.O).try_rotate =
      (match (kicks (Game.newGame PieceKind.T PieceKind.O).current.kind).find?
          (fun k => (Game.newGame PieceKind.T PieceKind.O).board.fits
            (kickAbs (Game.newGame PieceKind.T PieceKind.O)
              (Game.newGame PieceKind.T PieceKind.O).current.rotated_cw k)) with
        | some k => (true, commitRotate (Game.newGame PieceKind.T PieceKind.O)
            (Game.newGame PieceKind.T PieceKind.O).current.rotated_cw k)
        | none => (false, Game.newGame PieceKind.T PieceKind.O))) :=
  ⟨by decide, C4_try_rotate (Game.newGame PieceKind.T PieceKind.O) (by decide)⟩

/-- C1 counterexample: a lock whose spawn is blocked sets `game_over`, yet a
subsequent direct `try_move` call still changes the current piece, because
`try_move` does not consult the terminal flag. -/
theorem C1_counterexample :
    cexOver.game_over = true ∧
    ¬((cexOver.try_move 1 0).2.current = cexOver.current) := by
  decide

/-- C1 (amended): once `game_over` is set by a blocked spawn, the driver loop
of `run_game` stops dispatching game operations altogether: its game-over
phase leaves the state untouched on every key other than retry and quit,
retry installs a fresh game, and quit exits; the `Game` methods themselves do
not consult the flag, so only this gating makes the operations unobservable. -/
theorem C1_gameover_driver (g fresh : Game) (k : Key) (hg : g.game_over = true)
    (h1 : k ≠ Key.r) (h2 : k ≠ Key.q) (h3 : k ≠ Key.esc) :
    overPhase g fresh k = some g ∧
    overPhase g fresh Key.r = some fresh ∧
    overPhase g fresh Key.q = none := by
  refine ⟨?_, rfl, rfl⟩
  cases k <;> simp_all [overPhase]

/-- C1 witness: the game-over state reached in the counterexample, with an
arrow key: the driver retains the state unchanged. -/
theorem C1_gameover_driver_witness :
    cexOver.game_over = true ∧
    (Key.left ≠ Key.r ∧ Key.left ≠ Key.q ∧ Key.left ≠ Key.esc) ∧
    (overPhase cexOver cexGame Key.left = some cexOver ∧
      overPhase cexOver cexGame Key.r = some cexGame ∧
      overPhase cexOver cexGame Key.q = none) :=
  ⟨by decide, ⟨by decide, by decide, by decide⟩,
    C1_gameover_driver cexOver cexGame Key.left (by decide) (by decide)
      (by decide) (by decide)⟩

/-- C9: for every fuel and game, the ghost computation returns exactly the
absolute cells the current piece occupies after the descent phase of
`hard_drop` (the `try_move(0,1)` loop), and that descent phase touches no
state component other than the current piece, so the read-only ghost and the
drop agree on the landing position. -/
theorem C9_ghost_eq_drop (fuel : Nat) (g : Game) :
    g.ghost_cells fuel = (hardDropDescend fuel g).current.absolute_cells ∧
    (hardDropDescend fuel g).board = g.board ∧
    (hardDropDescend fuel g).score = g.score ∧
    (hardDropDescend fuel g).lines = g.lines ∧
    (hardDropDescend fuel g).level = g.level ∧
    (hardDropDescend fuel g).next = g.next ∧
    (hardDropDescend fuel g).game_over = g.game_over := by
  rw [hardDropDescend_eq fuel g]
  exact ⟨rfl, rfl, rfl, rfl, rfl, rfl, rfl⟩

/-- C10: for a current piece with a nonempty cell list, both descent loops
terminate: some fuel reaches a state from which the next downward step does
not fit (the ghost loop exit and the failing `try_move(0,1)` of `hard_drop`),
and any larger fuel leaves both results unchanged. -/
theorem C10_descent_terminates (g : Game) (h : g.current.cells ≠ []) :
    ∃ fuel : Nat,
      blockedBelow g.board (ghostDescend fuel g.board g.current) = true ∧
      ((hardDropDescend fuel g).try_move 0 1).1 = false ∧
      ∀ f2 : Nat, fuel ≤ f2 →
        ghostDescend f2 g.board g.current = ghostDescend fuel g.board g.current ∧
        hardDropDescend f2 g = hardDropDescend fuel g := by
  obtain ⟨c, hc⟩ := List.exists_mem_of_ne_nil g.current.cells h
  obtain ⟨fuel, hb⟩ := ghost_terminates g.board g.current c hc
  refine ⟨fuel, hb, ?_, ?_⟩
  · rw [hardDropDescend_eq fuel g]
    have hfit : g.board.fits
        ((ghostDescend fuel g.board g.current).cells.map
          (fun cc => ((ghostDescend fuel g.board g.current).x + cc.1,
            (ghostDescend fuel g.board g.current).y + cc.2 + 1))) = false := by
      simpa [blockedBelow] using hb
    rw [next_cells_abs] at hfit
    have hmove : ({ g with current := ghostDescend fuel g.board g.current } :
        Game).movedPiece 0 1 =
        { ghostDescend fuel g.board g.current with
            y := (ghostDescend fuel g.board g.current).y + 1 } :=
      movedPiece_zero_one _
    simp only [Game.try_move, hmove, hfit, Bool.false_eq_true, if_false]
  · intro f2 hle
    obtain ⟨d, rfl⟩ := Nat.exists_eq_add_of_le hle
    constructor
    · rw [ghostDescend_add g.board fuel d g.current]
      exact ghostDescend_blocked g.board _ hb d
    · rw [hardDropDescend_eq (fuel + d) g, hardDropDescend_eq fuel g,
        ghostDescend_add g.board fuel d g.current,
        ghostDescend_blocked g.board _ hb d]

/-- C10 witness: the fresh game has a current piece with four offsets, so its
descent loops terminate. -/
theorem C10_descent_terminates_witness :
    (Game.newGame PieceKind.T PieceKind.O).current.cells ≠ [] ∧
    (∃ fuel : Nat,
      blockedBelow (Game.newGame PieceKind.T PieceKind.O).board
        (ghostDescend fuel (Game.newGame PieceKind.T PieceKind.O).board
          (Game.newGame PieceKind.T PieceKind.O).current) = true ∧
      ((hardDropDescend fuel (Game.newGame PieceKind.T PieceKind.O)).try_move
        0 1).1 = false ∧
      ∀ f2 : Nat, fuel ≤ f2 →
        ghostDescend f2 (Game.newGame PieceKind.T PieceKind.O).board
            (Game.newGame PieceKind.T PieceKind.O).current =
          ghostDescend fuel (Game.newGame PieceKind.T PieceKind.O).board
            (Game.newGame PieceKind.T PieceKind.O).current ∧
        hardDropDescend f2 (Game.newGame PieceKind.T PieceKind.O) =
          hardDropDescend fuel (Game.newGame PieceKind.T PieceKind.O)) :=
  ⟨by decide,
    C10_descent_terminates (Game.newGame PieceKind.T PieceKind.O) (by decide)⟩
